import Mathlib

/-
Shallow embedding of src/main.py: a FastAPI endpoint that builds a
transportation LP (cost matrix, supply and demand dictionaries with a
fictitious balancing customer named "Cliente fic.") and hands it to an
external LP solver, then assembles a result matrix, a capacity row and a
total cost.  Python floats are modelled as rationals, Python ints as
integers, and Python dicts as insertion-ordered association lists with
unique keys (dictSet replaces the value of an existing key in place and
appends a fresh key at the end, exactly like a Python dict assignment).
The external LP solver (the pulp library, not part of the repository) is
a parameter of solve_transportation; the constraints the code gives it
(lines 89-95 of main.py) are reflected by SatisfiesConstraints.
-/

set_option autoImplicit false

/-- A Python dict with string keys, in insertion order. -/
abbrev Dict (α : Type) : Type := List (String × α)

/-- Lookup with default: the value of the first entry with the given key. -/
def dictGet {α : Type} : Dict α → String → α → α
  | [], _, dflt => dflt
  | p :: ps, k, dflt => if p.1 = k then p.2 else dictGet ps k dflt

/-- Python dict assignment d[k] = v: replace the value in place if the key
is present, otherwise append the new entry at the end. -/
def dictSet {α : Type} : Dict α → String → α → Dict α
  | [], k, v => [(k, v)]
  | p :: ps, k, v => if p.1 = k then (k, v) :: ps else p :: dictSet ps k v

/-- The keys of a dict, in insertion order. -/
def dictKeys {α : Type} (d : Dict α) : List String := d.map Prod.fst

/-- Python sum(d.values()). -/
def dictSum {α : Type} [AddCommMonoid α] (d : Dict α) : α := (d.map Prod.snd).sum

/-- A dict comprehension: insert the pairs left to right (later duplicates
of a key overwrite the stored value, as in Python). -/
def dictOf {α : Type} (ps : List (String × α)) : Dict α :=
  ps.foldl (fun d p => dictSet d p.1 p.2) []

/-- Whether an Except value is a success. -/
def exceptIsOk {ε α : Type} : Except ε α → Bool
  | .ok _ => true
  | .error _ => false

/-- Pydantic model ValidCombination (main.py lines 20-24). -/
structure ValidCombination where
  combination : String
  description : String
  capacity : Int
  cost : Int
deriving DecidableEq

/-- Pydantic model Customer (main.py lines 26-33): one required cost field
per known location name, plus the demand. -/
structure Customer where
  client : String
  Cleveland : ℚ
  Harrisburg : ℚ
  Chicago : ℚ
  Trenton : ℚ
  Louisville : ℚ
  demand : Int
deriving DecidableEq

/-- Pydantic model Location (main.py lines 35-39). -/
structure Location where
  location : String
  capacity : Int
  shippingCost : ℚ
  generalCost : Int
deriving DecidableEq

/-- Pydantic model TransportationData (main.py lines 41-44). -/
structure TransportationData where
  validCombinations : List ValidCombination
  customers : List Customer
  locations : List Location
deriving DecidableEq

/-- The five cost attributes a Customer object carries. -/
def fieldNames : List String := ["Cleveland", "Harrisburg", "Chicago", "Trenton", "Louisville"]

/-- The attribute names of the Customer model for which line 59 of main.py
succeeds: getattr finds every attribute of the pydantic object, and the
addition with the float shippingCost goes through exactly when the value is
a number — the five cost fields and the int field demand (promoted to
float).  The str field client and the model method attributes make the
addition raise TypeError, and unknown names raise AttributeError; either
way line 59 raises and the request fails through the same handler. -/
def numericAttrNames : List String := fieldNames ++ ["demand"]

/-- The outcome of getattr(customer, loc) + shippingCost on the embedded
Customer model, before the shipping surcharge: some value for the five
cost fields and for demand (an int promoted to float by the addition), and
none for every other name, where the real code raises — AttributeError for
an unknown name, TypeError for client or a method attribute — and the
exception is caught by the single handler of lines 122-123. -/
def getattrCost (c : Customer) (name : String) : Option ℚ :=
  if name = "Cleveland" then some c.Cleveland
  else if name = "Harrisburg" then some c.Harrisburg
  else if name = "Chicago" then some c.Chicago
  else if name = "Trenton" then some c.Trenton
  else if name = "Louisville" then some c.Louisville
  else if name = "demand" then some (c.demand : ℚ)
  else none

/-- The cost field of a customer for a location name, defaulting to 0 when
the attribute is absent (only used under hypotheses that it is present). -/
def getCost (c : Customer) (name : String) : ℚ := (getattrCost c name).getD 0

/-- main.py line 49: shipping_costs = dict from location name to shippingCost. -/
def shippingCosts (locations : List Location) : Dict ℚ :=
  dictOf (locations.map fun l => (l.location, l.shippingCost))

/-- main.py line 52: cost_matrix initialised with an empty inner dict per
location name. -/
def initMatrix (locations : List Location) : Dict (Dict ℚ) :=
  dictOf (locations.map fun l => (l.location, ([] : Dict ℚ)))

/-- Left fold that stops at the first error, the way a Python loop raising
an exception stops the surrounding computation. -/
def exceptFold {ε β α : Type} (f : β → α → Except ε β) : β → List α → Except ε β
  | b, [] => .ok b
  | b, a :: as =>
    match f b a with
    | .error e => .error e
    | .ok b2 => exceptFold f b2 as

/-- main.py lines 55-59, body of the customer loop: for each location key
of the cost matrix, look up the customer attribute (AttributeError when the
location is not one of the five fields) and store attribute + shippingCost
under the customer name. -/
def fillCustomer (ship : Dict ℚ) (cm : Dict (Dict ℚ)) (c : Customer) : Except String (Dict (Dict ℚ)) :=
  exceptFold (fun acc L =>
      match getattrCost c L with
      | none => .error ("Customer object has no attribute " ++ L)
      | some b => .ok (dictSet acc L (dictSet (dictGet acc L []) c.client (b + dictGet ship L 0))))
    cm (dictKeys cm)

/-- The same per-customer pass, once every attribute is known to exist. -/
def fillPure (ship : Dict ℚ) (cm : Dict (Dict ℚ)) (c : Customer) : Dict (Dict ℚ) :=
  (dictKeys cm).foldl
    (fun acc L => dictSet acc L (dictSet (dictGet acc L []) c.client (getCost c L + dictGet ship L 0)))
    cm

/-- main.py lines 62-63: cost_matrix[loc]["Cliente fic."] = 0.0 for every
location key. -/
def syntheticLoop (cm : Dict (Dict ℚ)) : Dict (Dict ℚ) :=
  (dictKeys cm).foldl (fun acc L => dictSet acc L (dictSet (dictGet acc L []) "Cliente fic." 0)) cm

/-- main.py lines 47-65: transform_data_to_cost_matrix. -/
def transform_data_to_cost_matrix (customers : List Customer) (locations : List Location) :
    Except String (Dict (Dict ℚ)) :=
  match exceptFold (fun cm c => fillCustomer (shippingCosts locations) cm c) (initMatrix locations) customers with
  | .error e => .error e
  | .ok filled => .ok (syntheticLoop filled)

/-- main.py line 72: oferta = {loc.location: loc.capacity}. -/
def oferta (data : TransportationData) : Dict Int :=
  dictOf (data.locations.map fun l => (l.location, l.capacity))

/-- main.py line 73: demanda = {customer.client: customer.demand}. -/
def demanda0 (data : TransportationData) : Dict Int :=
  dictOf (data.customers.map fun c => (c.client, c.demand))

/-- main.py line 74: demanda["Cliente fic."] = sum(oferta.values()) - sum(demanda.values()). -/
def demanda (data : TransportationData) : Dict Int :=
  dictSet (demanda0 data) "Cliente fic." (dictSum (oferta data) - dictSum (demanda0 data))

/-- What the external LP solver hands back: a status string (LpStatus) and a
value for each decision variable x_almacen_cliente. -/
structure SolverOutcome where
  status : String
  value : String → String → ℚ

/-- The external LP solver, a parameter of the embedding: it receives the
problem data (costs, supplies, demands) that determine the LpProblem built
in main.py lines 77-95. -/
def Solver : Type := Dict (Dict ℚ) → Dict Int → Dict Int → SolverOutcome

/-- A cell of the result matrix: Python rows mix strings and numbers. -/
inductive Cell where
  | str : String → Cell
  | num : ℚ → Cell
deriving DecidableEq

/-- Numeric content of a cell (0 for a string cell). -/
def cellNum : Cell → ℚ
  | .num q => q
  | .str _ => 0

/-- main.py lines 102-110: the row of one cliente: CLIENTE name, one value
per almacen (accumulating the row total), then the DEMANDA total. -/
def mkRow (v : String → String → ℚ) (ofertaKeys : List String) (cliente : String) : Dict Cell :=
  let rt := ofertaKeys.foldl
    (fun (p : Dict Cell × ℚ) almacen =>
      (dictSet p.1 almacen (Cell.num (v almacen cliente)), p.2 + v almacen cliente))
    ([("CLIENTE", Cell.str cliente)], 0)
  dictSet rt.1 "DEMANDA" (Cell.num rt.2)

/-- main.py lines 113-118: the trailing capacity row, whose DEMANDA field is
the string total_capacity / sum(demanda.values()). -/
def capacityRow (ofertaD : Dict Int) (demandaTotal : Int) : Dict Cell :=
  let rt := (dictKeys ofertaD).foldl
    (fun (p : Dict Cell × Int) almacen =>
      (dictSet p.1 almacen (Cell.num ((dictGet ofertaD almacen 0 : Int) : ℚ)), p.2 + dictGet ofertaD almacen 0))
    ([("CLIENTE", Cell.str "CAPACIDAD")], 0)
  dictSet rt.1 "DEMANDA" (Cell.str (toString rt.2 ++ " / " ++ toString demandaTotal))

/-- main.py line 87 evaluated at the returned variable values: the objective
lpSum of x_almacen_cliente * costos[almacen][cliente], which is what
modelo.objective.value() reports on line 121. -/
def objectiveValue (v : String → String → ℚ) (costos : Dict (Dict ℚ)) (ofertaD demandaD : Dict Int) : ℚ :=
  ((dictKeys ofertaD).map fun almacen =>
    ((dictKeys demandaD).map fun cliente =>
      v almacen cliente * dictGet (dictGet costos almacen []) cliente 0).sum).sum

/-- The JSON body returned on success (main.py line 121). -/
structure Response where
  status : String
  matrix : List (Dict Cell)
  total_cost : ℚ
deriving DecidableEq

/-- main.py lines 67-123: the solve-transportation endpoint.  Any exception
is reported as an error (HTTPException 500); otherwise the LpProblem built
from costos, oferta and demanda is given to the external solver and the
result matrix, capacity row, status and total cost are assembled. -/
def solve_transportation (solver : Solver) (data : TransportationData) : Except String Response :=
  match transform_data_to_cost_matrix data.customers data.locations with
  | .error e => .error e
  | .ok costos =>
    let out := solver costos (oferta data) (demanda data)
    let result_matrix := (dictKeys (demanda data)).map (mkRow out.value (dictKeys (oferta data)))
    .ok { status := out.status
          matrix := result_matrix ++ [capacityRow (oferta data) (dictSum (demanda data))]
          total_cost := objectiveValue out.value costos (oferta data) (demanda data) }

/-- The constraint system of the LpProblem built in main.py lines 89-95:
row sums bounded by the supplies, column sums equal to the demands, and all
variables bounded below by 0 (line 81). -/
def SatisfiesConstraints (v : String → String → ℚ) (ofertaD demandaD : Dict Int) : Prop :=
  (∀ a ∈ dictKeys ofertaD, ((dictKeys demandaD).map (fun c => v a c)).sum ≤ ((dictGet ofertaD a 0 : Int) : ℚ)) ∧
  (∀ c ∈ dictKeys demandaD, ((dictKeys ofertaD).map (fun a => v a c)).sum = ((dictGet demandaD c 0 : Int) : ℚ)) ∧
  (∀ a ∈ dictKeys ofertaD, ∀ c ∈ dictKeys demandaD, 0 ≤ v a c)

/-- Modelled from the spec: the contract of the TransportationSolver (spec
sections 4.3 and 8), the one component absent from src (the code delegates
it to the external pulp library) — an outcome it reports as Optimal is a
feasible point of the constraint system it was given. -/
def SolverOutcomeOk (out : SolverOutcome) (ofertaD demandaD : Dict Int) : Prop :=
  out.status = "Optimal" → SatisfiesConstraints out.value ofertaD demandaD

/-- A solver reporting the instance infeasible, with all variables at 0 —
what the external solver does on an infeasible model. -/
def solverInf : Solver := fun _ _ _ => ⟨"Infeasible", fun _ _ => 0⟩

/-- A solver reporting Optimal with every variable at 0. -/
def solverZero : Solver := fun _ _ _ => ⟨"Optimal", fun _ _ => 0⟩

/-- A solver whose fixed answer ships 4 units to customer A and 6 elsewhere. -/
def solverC2 : Solver := fun _ _ _ => ⟨"Optimal", fun _ c => if c = "A" then 4 else 6⟩

/-- A solver whose fixed answer ships 80 units to customer A and 20 elsewhere. -/
def solverW : Solver := fun _ _ _ => ⟨"Optimal", fun _ c => if c = "A" then 80 else 20⟩

/-- One location of capacity 5, one customer demanding 10: demand exceeds supply. -/
def dataC1 : TransportationData := ⟨[], [⟨"A", 1, 1, 1, 1, 1, 10⟩], [⟨"Cleveland", 5, 0, 0⟩]⟩

/-- One location of capacity 10, one customer A demanding 4. -/
def dataC2 : TransportationData := ⟨[], [⟨"A", 1, 1, 1, 1, 1, 4⟩], [⟨"Cleveland", 10, 0, 0⟩]⟩

/-- A customer whose name collides with the fictitious client, base cost 5,
against a location with shipping cost 2. -/
def dataC3 : TransportationData := ⟨[], [⟨"Cliente fic.", 5, 5, 5, 5, 5, 3⟩], [⟨"Cleveland", 10, 2, 0⟩]⟩

/-- A balanced instance (capacity 4, demand 4) whose only customer is named
like the fictitious client. -/
def dataC4 : TransportationData := ⟨[], [⟨"Cliente fic.", 1, 1, 1, 1, 1, 4⟩], [⟨"Cleveland", 4, 0, 0⟩]⟩

/-- Capacity 10 against real demand 4, leaving a surplus of 6. -/
def dataC6 : TransportationData := ⟨[], [⟨"A", 1, 1, 1, 1, 1, 4⟩], [⟨"Cleveland", 10, 0, 0⟩]⟩

/-- Capacity 10, one customer named like the fictitious client demanding 4. -/
def dataC8 : TransportationData := ⟨[], [⟨"Cliente fic.", 1, 1, 1, 1, 1, 4⟩], [⟨"Cleveland", 10, 1, 0⟩]⟩

/-- Capacity 100, one customer A demanding 80. -/
def dataW : TransportationData := ⟨[], [⟨"A", 1, 1, 1, 1, 1, 80⟩], [⟨"Cleveland", 100, 0, 0⟩]⟩

/-- Like dataW, but with a validCombinations entry and generalCost 7. -/
def dataW1 : TransportationData := ⟨[⟨"x", "y", 1, 2⟩], [⟨"A", 1, 1, 1, 1, 1, 80⟩], [⟨"Cleveland", 100, 0, 7⟩]⟩

/-- Like dataW1, but with no validCombinations and generalCost 9. -/
def dataW2 : TransportationData := ⟨[], [⟨"A", 1, 1, 1, 1, 1, 80⟩], [⟨"Cleveland", 100, 0, 9⟩]⟩

/-- Capacity 10, one customer named like the fictitious client, base cost 2,
shipping cost 1, demand 4. -/
def dataX : TransportationData := ⟨[], [⟨"Cliente fic.", 2, 2, 2, 2, 2, 4⟩], [⟨"Cleveland", 10, 1, 0⟩]⟩

/-- One location literally named "demand" (shipping cost 2), one customer A
with demand 7: none of the five cost fields covers the location, yet the
getattr of line 59 finds the demand attribute. -/
def dataC7 : TransportationData := ⟨[], [⟨"A", 1, 1, 1, 1, 1, 7⟩], [⟨"demand", 5, 2, 0⟩]⟩

theorem mem_dictKeys_set {α : Type} (d : Dict α) (k k' : String) (v : α) :
    k' ∈ dictKeys (dictSet d k v) ↔ k' ∈ dictKeys d ∨ k' = k := by
  induction d with
  | nil => simp [dictSet, dictKeys]
  | cons p ps ih =>
    obtain ⟨a, b⟩ := p
    by_cases h : a = k
    · subst h
      simp [dictSet, dictKeys]
      tauto
    · simp [dictSet, h, dictKeys] at ih ⊢
      rw [ih]
      tauto

theorem dictKeys_set_of_mem {α : Type} {d : Dict α} {k : String} (v : α)
    (h : k ∈ dictKeys d) : dictKeys (dictSet d k v) = dictKeys d := by
  induction d with
  | nil => simp [dictKeys] at h
  | cons p ps ih =>
    obtain ⟨a, b⟩ := p
    by_cases hp : a = k
    · subst hp
      simp [dictSet, dictKeys]
    · simp only [dictKeys, List.map_cons, List.mem_cons] at h
      rcases h with h | h
      · exact absurd h.symm hp
      · simp [dictSet, hp, dictKeys]
        exact ih h

theorem dictKeys_set_of_not_mem {α : Type} {d : Dict α} {k : String} (v : α)
    (h : k ∉ dictKeys d) : dictKeys (dictSet d k v) = dictKeys d ++ [k] := by
  induction d with
  | nil => simp [dictSet, dictKeys]
  | cons p ps ih =>
    obtain ⟨a, b⟩ := p
    simp only [dictKeys, List.map_cons, List.mem_cons] at h
    push_neg at h
    have ha : ¬ a = k := fun e => h.1 e.symm
    simp [dictSet, ha, dictKeys]
    exact ih h.2

theorem dictGet_set_self {α : Type} (d : Dict α) (k : String) (v : α) (dflt : α) :
    dictGet (dictSet d k v) k dflt = v := by
  induction d with
  | nil => simp [dictSet, dictGet]
  | cons p ps ih =>
    obtain ⟨a, b⟩ := p
    by_cases h : a = k
    · subst h
      simp [dictSet, dictGet]
    · simp [dictSet, h, dictGet, ih]

theorem dictGet_set_ne {α : Type} (d : Dict α) {k k' : String} (v : α) (dflt : α)
    (h : k' ≠ k) : dictGet (dictSet d k v) k' dflt = dictGet d k' dflt := by
  have hk : ¬ k = k' := fun e => h e.symm
  induction d with
  | nil => simp [dictSet, dictGet, hk]
  | cons p ps ih =>
    obtain ⟨a, b⟩ := p
    by_cases hp : a = k
    · subst hp
      simp [dictSet, dictGet, hk]
    · by_cases hq : a = k'
      · subst hq
        simp [dictSet, hp, dictGet]
      · simp [dictSet, hp, dictGet, hq, ih]

theorem dictWF_set {α : Type} {d : Dict α} (k : String) (v : α)
    (h : (dictKeys d).Nodup) : (dictKeys (dictSet d k v)).Nodup := by
  by_cases hm : k ∈ dictKeys d
  · rw [dictKeys_set_of_mem v hm]; exact h
  · rw [dictKeys_set_of_not_mem v hm, List.nodup_append]
    refine ⟨h, List.nodup_singleton k, ?_⟩
    intro x hx hx'
    simp only [List.mem_singleton] at hx'
    exact hm (hx' ▸ hx)

theorem dictSum_set_of_not_mem {α : Type} [AddCommMonoid α] {d : Dict α} {k : String} (v : α)
    (h : k ∉ dictKeys d) : dictSum (dictSet d k v) = dictSum d + v := by
  induction d with
  | nil => simp [dictSet, dictSum]
  | cons p ps ih =>
    obtain ⟨a, b⟩ := p
    simp only [dictKeys, List.map_cons, List.mem_cons] at h
    push_neg at h
    have ha : ¬ a = k := fun e => h.1 e.symm
    simp [dictSet, ha, dictSum] at ih ⊢
    rw [ih h.2, add_assoc]

theorem dictGet_mem_of_mem_keys {α : Type} {d : Dict α} {k : String} (dflt : α)
    (h : k ∈ dictKeys d) : (k, dictGet d k dflt) ∈ d := by
  induction d with
  | nil => simp [dictKeys] at h
  | cons p ps ih =>
    obtain ⟨a, b⟩ := p
    by_cases hp : a = k
    · subst hp
      simp [dictGet]
    · simp only [dictKeys, List.map_cons, List.mem_cons] at h
      rcases h with h | h
      · exact absurd h.symm hp
      · simp [dictGet, hp]
        exact Or.inr (ih h)

theorem mem_dictSet_sub {α : Type} {d : Dict α} {k : String} {v : α} {q : String × α}
    (h : q ∈ dictSet d k v) : q ∈ d ∨ q = (k, v) := by
  induction d with
  | nil => simp [dictSet] at h; exact Or.inr h
  | cons p ps ih =>
    obtain ⟨a, b⟩ := p
    by_cases hp : a = k
    · subst hp
      simp [dictSet] at h
      rcases h with h | h
      · exact Or.inr h
      · exact Or.inl (List.mem_cons_of_mem _ h)
    · simp [dictSet, hp] at h
      rcases h with h | h
      · exact Or.inl (by simp [h])
      · rcases ih h with h2 | h2
        · exact Or.inl (List.mem_cons_of_mem _ h2)
        · exact Or.inr h2

theorem mem_foldl_dictSet_sub {α : Type} (ps : List (String × α)) (acc : Dict α) (q : String × α)
    (h : q ∈ ps.foldl (fun d p => dictSet d p.1 p.2) acc) : q ∈ acc ∨ q ∈ ps := by
  induction ps generalizing acc with
  | nil => exact Or.inl h
  | cons p rest ih =>
    simp only [List.foldl_cons] at h
    rcases ih _ h with h2 | h2
    · rcases mem_dictSet_sub h2 with h3 | h3
      · exact Or.inl h3
      · right
        simp [h3]
    · exact Or.inr (List.mem_cons_of_mem _ h2)

theorem mem_dictOf_sub {α : Type} {ps : List (String × α)} {q : String × α}
    (h : q ∈ dictOf ps) : q ∈ ps := by
  rcases mem_foldl_dictSet_sub ps [] q h with h2 | h2
  · simp at h2
  · exact h2

theorem mem_dictKeys_foldl_dictSet {α : Type} (ps : List (String × α)) (acc : Dict α) (k : String) :
    k ∈ dictKeys (ps.foldl (fun d p => dictSet d p.1 p.2) acc) ↔
      k ∈ dictKeys acc ∨ k ∈ ps.map Prod.fst := by
  induction ps generalizing acc with
  | nil => simp
  | cons p rest ih =>
    simp only [List.foldl_cons, List.map_cons, List.mem_cons]
    rw [ih, mem_dictKeys_set]
    tauto

theorem mem_dictKeys_dictOf {α : Type} (ps : List (String × α)) (k : String) :
    k ∈ dictKeys (dictOf ps) ↔ k ∈ ps.map Prod.fst := by
  rw [dictOf, mem_dictKeys_foldl_dictSet]
  simp [dictKeys]

theorem dictWF_foldl_dictSet {α : Type} (ps : List (String × α)) (acc : Dict α)
    (h : (dictKeys acc).Nodup) :
    (dictKeys (ps.foldl (fun d p => dictSet d p.1 p.2) acc)).Nodup := by
  induction ps generalizing acc with
  | nil => exact h
  | cons p rest ih =>
    simp only [List.foldl_cons]
    exact ih _ (dictWF_set _ _ h)

theorem dictWF_dictOf {α : Type} (ps : List (String × α)) : (dictKeys (dictOf ps)).Nodup := by
  exact dictWF_foldl_dictSet ps [] (by simp [dictKeys])

theorem dictKeys_foldl_dictSet_disjoint {α : Type} (ps : List (String × α)) (acc : Dict α)
    (hnd : (ps.map Prod.fst).Nodup) (hdisj : ∀ x ∈ ps.map Prod.fst, x ∉ dictKeys acc) :
    dictKeys (ps.foldl (fun d p => dictSet d p.1 p.2) acc) = dictKeys acc ++ ps.map Prod.fst := by
  induction ps generalizing acc with
  | nil => simp
  | cons p rest ih =>
    simp only [List.foldl_cons, List.map_cons]
    have h1 : p.1 ∉ dictKeys acc := hdisj p.1 (by simp)
    have hnd2 := (List.nodup_cons.mp hnd).2
    have hp1 := (List.nodup_cons.mp hnd).1
    rw [ih _ hnd2 ?_, dictKeys_set_of_not_mem _ h1]
    · simp
    · intro x hx
      rw [dictKeys_set_of_not_mem _ h1]
      simp only [List.mem_append, List.mem_singleton]
      rintro (h2 | rfl)
      · exact hdisj x (by simp [hx]) h2
      · exact hp1 hx

theorem dictKeys_dictOf_nodup {α : Type} (ps : List (String × α))
    (hnd : (ps.map Prod.fst).Nodup) : dictKeys (dictOf ps) = ps.map Prod.fst := by
  rw [dictOf, dictKeys_foldl_dictSet_disjoint ps [] hnd (by simp [dictKeys])]
  simp [dictKeys]

theorem dictGet_foldl_dictSet_not_mem {α : Type} (ps : List (String × α)) (acc : Dict α)
    {k : String} (dflt : α) (h : k ∉ ps.map Prod.fst) :
    dictGet (ps.foldl (fun d p => dictSet d p.1 p.2) acc) k dflt = dictGet acc k dflt := by
  induction ps generalizing acc with
  | nil => rfl
  | cons p rest ih =>
    simp only [List.map_cons, List.mem_cons] at h
    push_neg at h
    simp only [List.foldl_cons]
    rw [ih _ h.2, dictGet_set_ne _ _ _ h.1]

theorem dictGet_foldl_dictSet_mem {α : Type} (ps : List (String × α)) :
    ∀ (acc : Dict α) (k : String) (v : α) (dflt : α),
      (ps.map Prod.fst).Nodup → (k, v) ∈ ps →
      dictGet (ps.foldl (fun d p => dictSet d p.1 p.2) acc) k dflt = v := by
  induction ps with
  | nil =>
    intro acc k v dflt hnd hmem
    cases hmem
  | cons p rest ih =>
    obtain ⟨a, b⟩ := p
    intro acc k v dflt hnd hmem
    simp only [List.foldl_cons]
    rcases List.mem_cons.mp hmem with heq | hmem2
    · injection heq with h1 h2
      subst h1
      subst h2
      have hk : k ∉ rest.map Prod.fst := by
        simp only [List.map_cons, List.nodup_cons] at hnd
        exact hnd.1
      rw [dictGet_foldl_dictSet_not_mem rest (dictSet acc k v) dflt hk, dictGet_set_self]
    · have hnd2 : (rest.map Prod.fst).Nodup := by
        simp only [List.map_cons, List.nodup_cons] at hnd
        exact hnd.2
      exact ih _ k v dflt hnd2 hmem2

theorem dictGet_dictOf_nodup {α : Type} {ps : List (String × α)} {k : String} {v : α} (dflt : α)
    (hnd : (ps.map Prod.fst).Nodup) (hmem : (k, v) ∈ ps) :
    dictGet (dictOf ps) k dflt = v :=
  dictGet_foldl_dictSet_mem ps [] k v dflt hnd hmem

theorem dictSum_foldl_dictSet_disjoint {α : Type} [AddCommMonoid α] (ps : List (String × α)) :
    ∀ (acc : Dict α), (ps.map Prod.fst).Nodup → (∀ x ∈ ps.map Prod.fst, x ∉ dictKeys acc) →
      dictSum (ps.foldl (fun d p => dictSet d p.1 p.2) acc) = dictSum acc + (ps.map Prod.snd).sum := by
  induction ps with
  | nil =>
    intro acc _ _
    simp
  | cons p rest ih =>
    intro acc hnd hdisj
    simp only [List.foldl_cons, List.map_cons, List.sum_cons]
    have h1 : p.1 ∉ dictKeys acc := hdisj p.1 (by simp)
    have hp1 : p.1 ∉ rest.map Prod.fst := by
      simp only [List.map_cons, List.nodup_cons] at hnd
      exact hnd.1
    have hnd2 : (rest.map Prod.fst).Nodup := by
      simp only [List.map_cons, List.nodup_cons] at hnd
      exact hnd.2
    rw [ih _ hnd2 ?_, dictSum_set_of_not_mem _ h1, add_assoc]
    intro x hx
    rw [dictKeys_set_of_not_mem _ h1]
    simp only [List.mem_append, List.mem_singleton]
    rintro (h2 | rfl)
    · exact hdisj x (by simp [hx]) h2
    · exact hp1 hx

theorem dictSum_dictOf_nodup {α : Type} [AddCommMonoid α] (ps : List (String × α))
    (hnd : (ps.map Prod.fst).Nodup) : dictSum (dictOf ps) = (ps.map Prod.snd).sum := by
  rw [dictOf, dictSum_foldl_dictSet_disjoint ps [] hnd (by simp [dictKeys])]
  simp [dictSum]

theorem dictGet_foldl_write_not_mem {α : Type} (ks : List String) (f : Dict α → String → α)
    (d0 : Dict α) {k : String} (dflt : α) (h : k ∉ ks) :
    dictGet (ks.foldl (fun d a => dictSet d a (f d a)) d0) k dflt = dictGet d0 k dflt := by
  induction ks generalizing d0 with
  | nil => rfl
  | cons a as ih =>
    simp only [List.mem_cons] at h
    push_neg at h
    simp only [List.foldl_cons]
    rw [ih _ h.2, dictGet_set_ne _ _ _ h.1]

theorem dictGet_foldl_write_dep {α : Type} (ks : List String) (f : String → α → α) (y : α)
    (d0 : Dict α) {k : String} (dflt : α) (hnd : ks.Nodup) (h : k ∈ ks) :
    dictGet (ks.foldl (fun d a => dictSet d a (f a (dictGet d a y))) d0) k dflt
      = f k (dictGet d0 k y) := by
  induction ks generalizing d0 with
  | nil => cases h
  | cons a as ih =>
    simp only [List.foldl_cons]
    rcases List.mem_cons.mp h with rfl | hmem
    · have hk : k ∉ as := (List.nodup_cons.mp hnd).1
      have h1 : dictGet (as.foldl (fun d a => dictSet d a (f a (dictGet d a y)))
          (dictSet d0 k (f k (dictGet d0 k y)))) k dflt
          = dictGet (dictSet d0 k (f k (dictGet d0 k y))) k dflt :=
        dictGet_foldl_write_not_mem as _ _ dflt hk
      rw [h1, dictGet_set_self]
    · have hka : k ≠ a := fun e => (List.nodup_cons.mp hnd).1 (e ▸ hmem)
      rw [ih _ (List.nodup_cons.mp hnd).2 hmem, dictGet_set_ne _ _ _ hka]

theorem dictGet_foldl_write_indep {α : Type} (ks : List String) (g : String → α)
    (d0 : Dict α) {k : String} (dflt : α) (hnd : ks.Nodup) (h : k ∈ ks) :
    dictGet (ks.foldl (fun d a => dictSet d a (g a)) d0) k dflt = g k :=
  dictGet_foldl_write_dep ks (fun a _ => g a) dflt d0 dflt hnd h

theorem dictKeys_foldl_write {α : Type} (ks : List String) (f : Dict α → String → α)
    (d0 : Dict α) (h : ∀ a ∈ ks, a ∈ dictKeys d0) :
    dictKeys (ks.foldl (fun d a => dictSet d a (f d a)) d0) = dictKeys d0 := by
  induction ks generalizing d0 with
  | nil => rfl
  | cons a as ih =>
    simp only [List.foldl_cons]
    have h1 : dictKeys (dictSet d0 a (f d0 a)) = dictKeys d0 :=
      dictKeys_set_of_mem _ (h a (List.mem_cons_self a as))
    rw [ih _ ?_, h1]
    intro b hb
    rw [h1]
    exact h b (List.mem_cons_of_mem _ hb)

theorem sum_keys_getD {α : Type} [AddCommMonoid α] (d : Dict α) (dflt : α)
    (h : (dictKeys d).Nodup) :
    ((dictKeys d).map (fun k => dictGet d k dflt)).sum = dictSum d := by
  induction d with
  | nil => simp [dictKeys, dictSum]
  | cons p ps ih =>
    obtain ⟨a, b⟩ := p
    simp only [dictKeys, List.map_cons, List.nodup_cons] at h
    have hmap : (List.map Prod.fst ps).map (fun k => dictGet ((a, b) :: ps) k dflt)
        = (List.map Prod.fst ps).map (fun k => dictGet ps k dflt) := by
      apply List.map_congr_left
      intro k hk
      have hka : ¬ a = k := fun e => h.1 (e ▸ hk)
      simp [dictGet, hka]
    simp only [dictKeys, List.map_cons, List.sum_cons, dictSum, List.map]
    rw [show List.map (fun k => dictGet ((a, b) :: ps) k dflt) (List.map Prod.fst ps)
        = List.map (fun k => dictGet ps k dflt) (List.map Prod.fst ps) from hmap]
    have hh : dictGet ((a, b) :: ps) a dflt = b := by simp [dictGet]
    rw [hh]
    have ih2 := ih h.2
    simp only [dictKeys, dictSum] at ih2
    rw [ih2]

theorem rowFold_split (v : String → String → ℚ) (cliente : String) (ks : List String)
    (d0 : Dict Cell) (t0 : ℚ) :
    ks.foldl (fun (p : Dict Cell × ℚ) almacen =>
        (dictSet p.1 almacen (Cell.num (v almacen cliente)), p.2 + v almacen cliente)) (d0, t0)
      = (ks.foldl (fun d almacen => dictSet d almacen (Cell.num (v almacen cliente))) d0,
         t0 + (ks.map (fun almacen => v almacen cliente)).sum) := by
  induction ks generalizing d0 t0 with
  | nil => simp
  | cons a as ih =>
    simp only [List.foldl_cons, List.map_cons, List.sum_cons]
    rw [ih, add_assoc]

theorem capFold_split (ofertaD : Dict Int) (ks : List String) (d0 : Dict Cell) (t0 : Int) :
    ks.foldl (fun (p : Dict Cell × Int) almacen =>
        (dictSet p.1 almacen (Cell.num ((dictGet ofertaD almacen 0 : Int) : ℚ)),
         p.2 + dictGet ofertaD almacen 0)) (d0, t0)
      = (ks.foldl (fun d almacen =>
           dictSet d almacen (Cell.num ((dictGet ofertaD almacen 0 : Int) : ℚ))) d0,
         t0 + (ks.map (fun almacen => dictGet ofertaD almacen 0)).sum) := by
  induction ks generalizing d0 t0 with
  | nil => simp
  | cons a as ih =>
    simp only [List.foldl_cons, List.map_cons, List.sum_cons]
    rw [ih, add_assoc]

theorem mkRow_eq (v : String → String → ℚ) (ks : List String) (cliente : String) :
    mkRow v ks cliente
      = dictSet (ks.foldl (fun d a => dictSet d a (Cell.num (v a cliente)))
          [("CLIENTE", Cell.str cliente)])
          "DEMANDA" (Cell.num ((ks.map (fun a => v a cliente)).sum)) := by
  simp only [mkRow]
  rw [rowFold_split]
  simp

theorem capacityRow_eq (ofertaD : Dict Int) (dTotal : Int) :
    capacityRow ofertaD dTotal
      = dictSet ((dictKeys ofertaD).foldl (fun d a =>
            dictSet d a (Cell.num ((dictGet ofertaD a 0 : Int) : ℚ)))
          [("CLIENTE", Cell.str "CAPACIDAD")])
          "DEMANDA"
          (Cell.str (toString (((dictKeys ofertaD).map (fun a => dictGet ofertaD a 0)).sum)
            ++ " / " ++ toString dTotal)) := by
  simp only [capacityRow]
  rw [capFold_split]
  simp

theorem mkRow_DEMANDA (v : String → String → ℚ) (ks : List String) (cliente : String)
    (dflt : Cell) :
    dictGet (mkRow v ks cliente) "DEMANDA" dflt
      = Cell.num ((ks.map (fun a => v a cliente)).sum) := by
  rw [mkRow_eq, dictGet_set_self]

theorem mkRow_CLIENTE (v : String → String → ℚ) (ks : List String) (cliente : String)
    (dflt : Cell) (h : ("CLIENTE" : String) ∉ ks) :
    dictGet (mkRow v ks cliente) "CLIENTE" dflt = Cell.str cliente := by
  rw [mkRow_eq, dictGet_set_ne _ _ _ (by decide)]
  have h1 : dictGet (ks.foldl (fun d a => dictSet d a (Cell.num (v a cliente)))
      [("CLIENTE", Cell.str cliente)]) "CLIENTE" dflt
      = dictGet [("CLIENTE", Cell.str cliente)] "CLIENTE" dflt :=
    dictGet_foldl_write_not_mem ks _ _ dflt h
  rw [h1]
  simp [dictGet]

theorem mkRow_almacen (v : String → String → ℚ) (ks : List String) (cliente : String)
    (dflt : Cell) {a : String} (hnd : ks.Nodup) (h : a ∈ ks) (hD : a ≠ "DEMANDA") :
    dictGet (mkRow v ks cliente) a dflt = Cell.num (v a cliente) := by
  rw [mkRow_eq, dictGet_set_ne _ _ _ hD]
  exact dictGet_foldl_write_indep ks _ _ dflt hnd h

theorem capacityRow_DEMANDA (ofertaD : Dict Int) (dTotal : Int) (dflt : Cell)
    (h : (dictKeys ofertaD).Nodup) :
    dictGet (capacityRow ofertaD dTotal) "DEMANDA" dflt
      = Cell.str (toString (dictSum ofertaD) ++ " / " ++ toString dTotal) := by
  rw [capacityRow_eq, dictGet_set_self, sum_keys_getD ofertaD 0 h]

theorem capacityRow_CLIENTE (ofertaD : Dict Int) (dTotal : Int) (dflt : Cell)
    (h : ("CLIENTE" : String) ∉ dictKeys ofertaD) :
    dictGet (capacityRow ofertaD dTotal) "CLIENTE" dflt = Cell.str "CAPACIDAD" := by
  rw [capacityRow_eq, dictGet_set_ne _ _ _ (by decide)]
  have h1 : dictGet ((dictKeys ofertaD).foldl (fun d a =>
      dictSet d a (Cell.num ((dictGet ofertaD a 0 : Int) : ℚ)))
      [("CLIENTE", Cell.str "CAPACIDAD")]) "CLIENTE" dflt
      = dictGet [("CLIENTE", Cell.str "CAPACIDAD")] "CLIENTE" dflt :=
    dictGet_foldl_write_not_mem (dictKeys ofertaD) _ _ dflt h
  rw [h1]
  simp [dictGet]

theorem dictGet_not_mem {α : Type} {d : Dict α} {k : String} (dflt : α)
    (h : k ∉ dictKeys d) : dictGet d k dflt = dflt := by
  induction d with
  | nil => rfl
  | cons p ps ih =>
    obtain ⟨a, b⟩ := p
    simp only [dictKeys, List.map_cons, List.mem_cons] at h
    push_neg at h
    have ha : ¬ a = k := fun e => h.1 e.symm
    simp [dictGet, ha]
    exact ih h.2

theorem getattrCost_eq_none_iff (c : Customer) (n : String) :
    getattrCost c n = none ↔ n ∉ numericAttrNames := by
  simp only [getattrCost, numericAttrNames, fieldNames, List.mem_append, List.mem_cons,
    List.not_mem_nil, or_false]
  split_ifs with h1 h2 h3 h4 h5 h6 <;> simp_all

theorem getattrCost_isSome_of_mem (c : Customer) {n : String} (h : n ∈ numericAttrNames) :
    (getattrCost c n).isSome = true := by
  simp only [numericAttrNames, fieldNames, List.mem_append, List.mem_cons,
    List.not_mem_nil, or_false] at h
  rcases h with (rfl | rfl | rfl | rfl | rfl) | rfl <;> rfl

theorem fillFold_ok (ship : Dict ℚ) (c : Customer) (ks : List String) (cm : Dict (Dict ℚ))
    (h : ∀ L ∈ ks, (getattrCost c L).isSome = true) :
    exceptFold (fun acc L =>
        match getattrCost c L with
        | none => .error ("Customer object has no attribute " ++ L)
        | some b => .ok (dictSet acc L (dictSet (dictGet acc L []) c.client (b + dictGet ship L 0))))
      cm ks
      = .ok (ks.foldl (fun acc L =>
          dictSet acc L (dictSet (dictGet acc L []) c.client (getCost c L + dictGet ship L 0))) cm) := by
  induction ks generalizing cm with
  | nil => rfl
  | cons a as ih =>
    have ha := h a (List.mem_cons_self a as)
    rw [Option.isSome_iff_exists] at ha
    obtain ⟨b, hb⟩ := ha
    have hg : getCost c a = b := by simp [getCost, hb]
    simp only [exceptFold, hb, List.foldl_cons]
    rw [← hg] at hb ⊢
    exact ih _ (fun L hL => h L (List.mem_cons_of_mem _ hL))

theorem fillCustomer_eq_fillPure (ship : Dict ℚ) (cm : Dict (Dict ℚ)) (c : Customer)
    (h : ∀ L ∈ dictKeys cm, (getattrCost c L).isSome = true) :
    fillCustomer ship cm c = .ok (fillPure ship cm c) :=
  fillFold_ok ship c (dictKeys cm) cm h

theorem fillPure_keys (ship : Dict ℚ) (cm : Dict (Dict ℚ)) (c : Customer) :
    dictKeys (fillPure ship cm c) = dictKeys cm :=
  dictKeys_foldl_write (dictKeys cm) _ cm (fun a ha => ha)

theorem fillPure_getD (ship : Dict ℚ) (cm : Dict (Dict ℚ)) (c : Customer) {L : String}
    (hnd : (dictKeys cm).Nodup) (h : L ∈ dictKeys cm) :
    dictGet (fillPure ship cm c) L []
      = dictSet (dictGet cm L []) c.client (getCost c L + dictGet ship L 0) :=
  dictGet_foldl_write_dep (dictKeys cm)
    (fun a inner => dictSet inner c.client (getCost c a + dictGet ship a 0)) [] cm [] hnd h

theorem syntheticLoop_keys (cm : Dict (Dict ℚ)) : dictKeys (syntheticLoop cm) = dictKeys cm :=
  dictKeys_foldl_write (dictKeys cm) _ cm (fun a ha => ha)

theorem syntheticLoop_getD (cm : Dict (Dict ℚ)) {L : String}
    (hnd : (dictKeys cm).Nodup) (h : L ∈ dictKeys cm) :
    dictGet (syntheticLoop cm) L [] = dictSet (dictGet cm L []) "Cliente fic." 0 :=
  dictGet_foldl_write_dep (dictKeys cm)
    (fun _ inner => dictSet inner "Cliente fic." 0) [] cm [] hnd h

theorem transformFold_ok (ship : Dict ℚ) (customers : List Customer) (cm : Dict (Dict ℚ))
    (hnd : (dictKeys cm).Nodup) (hgood : ∀ L ∈ dictKeys cm, L ∈ numericAttrNames) :
    exceptFold (fun cm c => fillCustomer ship cm c) cm customers
      = .ok (customers.foldl (fun cm c => fillPure ship cm c) cm) := by
  induction customers generalizing cm with
  | nil => rfl
  | cons c cs ih =>
    simp only [exceptFold, List.foldl_cons]
    rw [fillCustomer_eq_fillPure ship cm c
      (fun L hL => getattrCost_isSome_of_mem c (hgood L hL))]
    have h1 := fillPure_keys ship cm c
    exact ih (fillPure ship cm c) (h1 ▸ hnd) (h1 ▸ hgood)

theorem foldl_fillPure_keys (ship : Dict ℚ) (customers : List Customer) (cm : Dict (Dict ℚ)) :
    dictKeys (customers.foldl (fun cm c => fillPure ship cm c) cm) = dictKeys cm := by
  induction customers generalizing cm with
  | nil => rfl
  | cons c cs ih =>
    simp only [List.foldl_cons]
    rw [ih, fillPure_keys]

theorem foldl_fillPure_getD (ship : Dict ℚ) (customers : List Customer) (cm : Dict (Dict ℚ))
    (hnd : (dictKeys cm).Nodup) {L : String} (hL : L ∈ dictKeys cm) :
    dictGet (customers.foldl (fun cm c => fillPure ship cm c) cm) L []
      = customers.foldl (fun inner c =>
          dictSet inner c.client (getCost c L + dictGet ship L 0)) (dictGet cm L []) := by
  induction customers generalizing cm with
  | nil => rfl
  | cons c cs ih =>
    simp only [List.foldl_cons]
    have h1 := fillPure_keys ship cm c
    rw [ih (fillPure ship cm c) (h1 ▸ hnd) (h1 ▸ hL), fillPure_getD ship cm c hnd hL]

theorem initMatrix_keys_sub (locations : List Location) {L : String}
    (h : L ∈ dictKeys (initMatrix locations)) : ∃ l ∈ locations, l.location = L := by
  rw [initMatrix, mem_dictKeys_dictOf] at h
  simp only [List.map_map, List.mem_map, Function.comp] at h
  exact h

theorem mem_initMatrix_keys (locations : List Location) {l : Location} (h : l ∈ locations) :
    l.location ∈ dictKeys (initMatrix locations) := by
  rw [initMatrix, mem_dictKeys_dictOf]
  simp only [List.map_map, List.mem_map, Function.comp]
  exact ⟨l, h, rfl⟩

theorem initMatrix_WF (locations : List Location) : (dictKeys (initMatrix locations)).Nodup :=
  dictWF_dictOf _

theorem initMatrix_getD (locations : List Location) (L : String) :
    dictGet (initMatrix locations) L ([] : Dict ℚ) = [] := by
  by_cases h : L ∈ dictKeys (initMatrix locations)
  · have hm := dictGet_mem_of_mem_keys ([] : Dict ℚ) h
    rw [initMatrix] at hm
    have hm2 := mem_dictOf_sub hm
    simp only [List.mem_map] at hm2
    obtain ⟨l, _, he⟩ := hm2
    injection he with e1 e2
    exact e2.symm
  · exact dictGet_not_mem _ h

theorem transform_ok (customers : List Customer) (locations : List Location)
    (hgood : ∀ l ∈ locations, l.location ∈ numericAttrNames) :
    transform_data_to_cost_matrix customers locations
      = .ok (syntheticLoop (customers.foldl
          (fun cm c => fillPure (shippingCosts locations) cm c) (initMatrix locations))) := by
  have hkeys : ∀ L ∈ dictKeys (initMatrix locations), L ∈ numericAttrNames := by
    intro L hL
    obtain ⟨l, hl, rfl⟩ := initMatrix_keys_sub locations hL
    exact hgood l hl
  simp only [transform_data_to_cost_matrix]
  rw [transformFold_ok (shippingCosts locations) customers (initMatrix locations)
    (initMatrix_WF locations) hkeys]

theorem foldl_inner_eq_dictOf (v : Customer → ℚ) (customers : List Customer) :
    customers.foldl (fun inner c => dictSet inner c.client (v c)) []
      = dictOf (customers.map fun c => (c.client, v c)) := by
  rw [dictOf, List.foldl_map]

theorem transform_entry (customers : List Customer) (locations : List Location)
    (hgood : ∀ l ∈ locations, l.location ∈ numericAttrNames)
    {L : String} (hL : L ∈ dictKeys (initMatrix locations)) (name : String)
    (M : Dict (Dict ℚ))
    (hM : transform_data_to_cost_matrix customers locations = .ok M) :
    dictGet (dictGet M L []) name 0
      = dictGet (dictSet (dictOf (customers.map fun c =>
          (c.client, getCost c L + dictGet (shippingCosts locations) L 0)))
          "Cliente fic." 0) name 0 := by
  rw [transform_ok customers locations hgood] at hM
  injection hM with hM2
  subst hM2
  have hkeysF := foldl_fillPure_keys (shippingCosts locations) customers (initMatrix locations)
  have hndF : (dictKeys (customers.foldl
      (fun cm c => fillPure (shippingCosts locations) cm c) (initMatrix locations))).Nodup :=
    hkeysF ▸ initMatrix_WF locations
  have hLF : L ∈ dictKeys (customers.foldl
      (fun cm c => fillPure (shippingCosts locations) cm c) (initMatrix locations)) :=
    hkeysF ▸ hL
  rw [syntheticLoop_getD _ hndF hLF,
    foldl_fillPure_getD (shippingCosts locations) customers (initMatrix locations)
      (initMatrix_WF locations) hL,
    initMatrix_getD locations L, foldl_inner_eq_dictOf]

theorem fillFold_error (ship : Dict ℚ) (c : Customer) (ks : List String) (cm : Dict (Dict ℚ))
    (h : ∃ L ∈ ks, getattrCost c L = none) :
    exceptIsOk (exceptFold (fun acc L =>
        match getattrCost c L with
        | none => .error ("Customer object has no attribute " ++ L)
        | some b => .ok (dictSet acc L (dictSet (dictGet acc L []) c.client (b + dictGet ship L 0))))
      cm ks) = false := by
  induction ks generalizing cm with
  | nil => simp at h
  | cons a as ih =>
    by_cases ha : getattrCost c a = none
    · simp only [exceptFold, ha]
      rfl
    · have hb : ∃ b, getattrCost c a = some b := Option.ne_none_iff_exists'.mp ha
      obtain ⟨b, hb⟩ := hb
      simp only [exceptFold, hb]
      apply ih
      obtain ⟨L, hL, hLnone⟩ := h
      rcases List.mem_cons.mp hL with rfl | hmem
      · exact absurd hLnone ha
      · exact ⟨L, hmem, hLnone⟩

theorem transform_error (customers : List Customer) (locations : List Location)
    (c0 : Customer) (l0 : Location) (hc : c0 ∈ customers) (hl : l0 ∈ locations)
    (hbad : getattrCost c0 l0.location = none) :
    exceptIsOk (transform_data_to_cost_matrix customers locations) = false := by
  rcases customers with _ | ⟨c, cs⟩
  · cases hc
  · have hbadc : getattrCost c l0.location = none := by
      rw [getattrCost_eq_none_iff] at hbad ⊢
      exact hbad
    have herr : exceptIsOk (fillCustomer (shippingCosts locations) (initMatrix locations) c)
        = false :=
      fillFold_error (shippingCosts locations) c (dictKeys (initMatrix locations))
        (initMatrix locations) ⟨l0.location, mem_initMatrix_keys locations hl, hbadc⟩
    rcases hE : fillCustomer (shippingCosts locations) (initMatrix locations) c with e | val
    · simp only [transform_data_to_cost_matrix, exceptFold]
      rw [hE]
      rfl
    · rw [hE] at herr
      simp [exceptIsOk] at herr

theorem solve_transportation_ok (solver : Solver) (data : TransportationData)
    (costos : Dict (Dict ℚ))
    (hT : transform_data_to_cost_matrix data.customers data.locations = .ok costos) :
    solve_transportation solver data
      = .ok { status := (solver costos (oferta data) (demanda data)).status
              matrix := (dictKeys (demanda data)).map
                  (mkRow (solver costos (oferta data) (demanda data)).value
                    (dictKeys (oferta data)))
                ++ [capacityRow (oferta data) (dictSum (demanda data))]
              total_cost := objectiveValue (solver costos (oferta data) (demanda data)).value
                costos (oferta data) (demanda data) } := by
  simp only [solve_transportation]
  rw [hT]

theorem oferta_WF (data : TransportationData) : (dictKeys (oferta data)).Nodup :=
  dictWF_dictOf _

theorem demanda0_WF (data : TransportationData) : (dictKeys (demanda0 data)).Nodup :=
  dictWF_dictOf _

theorem demanda_WF (data : TransportationData) : (dictKeys (demanda data)).Nodup :=
  dictWF_set _ _ (demanda0_WF data)

theorem oferta_keys (data : TransportationData)
    (hnd : (data.locations.map fun l => l.location).Nodup) :
    dictKeys (oferta data) = data.locations.map fun l => l.location := by
  have hm : (data.locations.map fun l => (l.location, l.capacity)).map Prod.fst
      = data.locations.map fun l => l.location := by
    simp [List.map_map, Function.comp]
  rw [oferta, dictKeys_dictOf_nodup _ (hm ▸ hnd), hm]

theorem mem_oferta_keys (data : TransportationData) {l : Location} (h : l ∈ data.locations) :
    l.location ∈ dictKeys (oferta data) := by
  rw [oferta, mem_dictKeys_dictOf]
  simp only [List.map_map, List.mem_map, Function.comp]
  exact ⟨l, h, rfl⟩

theorem oferta_getD (data : TransportationData) {l : Location}
    (hnd : (data.locations.map fun l => l.location).Nodup) (h : l ∈ data.locations) :
    dictGet (oferta data) l.location 0 = l.capacity := by
  apply dictGet_dictOf_nodup 0
  · simpa [List.map_map, Function.comp] using hnd
  · simp only [List.mem_map]
    exact ⟨l, h, rfl⟩

theorem demanda0_keys (data : TransportationData)
    (hnd : (data.customers.map fun c => c.client).Nodup) :
    dictKeys (demanda0 data) = data.customers.map fun c => c.client := by
  have hm : (data.customers.map fun c => (c.client, c.demand)).map Prod.fst
      = data.customers.map fun c => c.client := by
    simp [List.map_map, Function.comp]
  rw [demanda0, dictKeys_dictOf_nodup _ (hm ▸ hnd), hm]

theorem demanda0_getD (data : TransportationData) {c : Customer}
    (hnd : (data.customers.map fun c => c.client).Nodup) (h : c ∈ data.customers) :
    dictGet (demanda0 data) c.client 0 = c.demand := by
  apply dictGet_dictOf_nodup 0
  · simpa [List.map_map, Function.comp] using hnd
  · simp only [List.mem_map]
    exact ⟨c, h, rfl⟩

theorem fic_not_mem_demanda0_keys (data : TransportationData)
    (hnc : ∀ c ∈ data.customers, c.client ≠ "Cliente fic.") :
    "Cliente fic." ∉ dictKeys (demanda0 data) := by
  rw [demanda0, mem_dictKeys_dictOf]
  intro hmem
  simp only [List.map_map, List.mem_map, Function.comp] at hmem
  obtain ⟨c, hc, he⟩ := hmem
  exact hnc c hc he

theorem demanda_keys (data : TransportationData)
    (hnd : (data.customers.map fun c => c.client).Nodup)
    (hnc : ∀ c ∈ data.customers, c.client ≠ "Cliente fic.") :
    dictKeys (demanda data)
      = (data.customers.map fun c => c.client) ++ ["Cliente fic."] := by
  rw [demanda, dictKeys_set_of_not_mem _ (fic_not_mem_demanda0_keys data hnc),
    demanda0_keys data hnd]

theorem demanda_getD_real (data : TransportationData) {c : Customer}
    (hnd : (data.customers.map fun c => c.client).Nodup) (h : c ∈ data.customers)
    (hne : c.client ≠ "Cliente fic.") :
    dictGet (demanda data) c.client 0 = c.demand := by
  rw [demanda, dictGet_set_ne _ _ _ hne, demanda0_getD data hnd h]

theorem demanda_getD_fic (data : TransportationData) :
    dictGet (demanda data) "Cliente fic." 0
      = dictSum (oferta data) - dictSum (demanda0 data) := by
  rw [demanda, dictGet_set_self]

theorem dictSum_demanda (data : TransportationData)
    (hnc : ∀ c ∈ data.customers, c.client ≠ "Cliente fic.") :
    dictSum (demanda data) = dictSum (oferta data) := by
  rw [demanda, dictSum_set_of_not_mem _ (fic_not_mem_demanda0_keys data hnc)]
  omega

theorem dictSum_oferta (data : TransportationData)
    (hnd : (data.locations.map fun l => l.location).Nodup) :
    dictSum (oferta data) = (data.locations.map fun l => l.capacity).sum := by
  rw [oferta, dictSum_dictOf_nodup]
  · rw [List.map_map]
    rfl
  · simpa [List.map_map, Function.comp] using hnd

theorem dictSum_demanda0 (data : TransportationData)
    (hnd : (data.customers.map fun c => c.client).Nodup) :
    dictSum (demanda0 data) = (data.customers.map fun c => c.demand).sum := by
  rw [demanda0, dictSum_dictOf_nodup]
  · rw [List.map_map]
    rfl
  · simpa [List.map_map, Function.comp] using hnd

theorem no_feasible_of_neg_demand (ofertaD demandaD : Dict Int) {k : String}
    (hk : k ∈ dictKeys demandaD) (hneg : dictGet demandaD k 0 < 0) :
    ¬ ∃ v, SatisfiesConstraints v ofertaD demandaD := by
  rintro ⟨v, hs⟩
  have h2 := hs.2.1 k hk
  have h3 : (0 : ℚ) ≤ ((dictKeys ofertaD).map (fun a => v a k)).sum := by
    apply List.sum_nonneg
    intro x hx
    simp only [List.mem_map] at hx
    obtain ⟨a, ha, rfl⟩ := hx
    exact hs.2.2 a ha k hk
  rw [h2] at h3
  have h4 : ((dictGet demandaD k 0 : Int) : ℚ) < 0 := by exact_mod_cast hneg
  linarith

theorem transform_eq_of_proj (customers : List Customer) (l1 l2 : List Location)
    (h : l1.map (fun l => (l.location, l.capacity, l.shippingCost))
       = l2.map (fun l => (l.location, l.capacity, l.shippingCost))) :
    transform_data_to_cost_matrix customers l1 = transform_data_to_cost_matrix customers l2 := by
  have hship : shippingCosts l1 = shippingCosts l2 := by
    have h2 : l1.map (fun l => (l.location, l.shippingCost))
        = l2.map (fun l => (l.location, l.shippingCost)) := by
      have h3 := congrArg (List.map (fun t : String × Int × ℚ => (t.1, t.2.2))) h
      simpa [List.map_map, Function.comp] using h3
    rw [shippingCosts, shippingCosts, h2]
  have hinit : initMatrix l1 = initMatrix l2 := by
    have h2 : l1.map (fun l => (l.location, ([] : Dict ℚ)))
        = l2.map (fun l => (l.location, ([] : Dict ℚ))) := by
      have h3 := congrArg (List.map (fun t : String × Int × ℚ => (t.1, ([] : Dict ℚ)))) h
      simpa [List.map_map, Function.comp] using h3
    rw [initMatrix, initMatrix, h2]
  simp only [transform_data_to_cost_matrix]
  rw [hship, hinit]

theorem oferta_eq_of_proj (d1 d2 : TransportationData)
    (h : d1.locations.map (fun l => (l.location, l.capacity, l.shippingCost))
       = d2.locations.map (fun l => (l.location, l.capacity, l.shippingCost))) :
    oferta d1 = oferta d2 := by
  have h2 : d1.locations.map (fun l => (l.location, l.capacity))
      = d2.locations.map (fun l => (l.location, l.capacity)) := by
    have h3 := congrArg (List.map (fun t : String × Int × ℚ => (t.1, t.2.1))) h
    simpa [List.map_map, Function.comp] using h3
  rw [oferta, oferta, h2]

theorem zip_map_self {α β : Type} (f : α → β) (l : List α) :
    (l.map f).zip l = l.map (fun a => (f a, a)) := by
  induction l with
  | nil => rfl
  | cons a as ih => simp [ih]

theorem shippingCosts_getD (locations : List Location) {l : Location}
    (hnd : (locations.map fun l => l.location).Nodup) (h : l ∈ locations) :
    dictGet (shippingCosts locations) l.location 0 = l.shippingCost := by
  apply dictGet_dictOf_nodup 0
  · simpa [List.map_map, Function.comp] using hnd
  · simp only [List.mem_map]
    exact ⟨l, h, rfl⟩

theorem oferta_keys_sub (data : TransportationData) {L : String}
    (h : L ∈ dictKeys (oferta data)) : ∃ l ∈ data.locations, l.location = L := by
  rw [oferta, mem_dictKeys_dictOf] at h
  simp only [List.map_map, List.mem_map, Function.comp] at h
  exact h

theorem not_mem_oferta_keys (data : TransportationData) {n : String}
    (h : ∀ l ∈ data.locations, l.location ≠ n) : n ∉ dictKeys (oferta data) := by
  intro hmem
  obtain ⟨l, hl, he⟩ := oferta_keys_sub data hmem
  exact h l hl he

theorem list_sum_map_add {γ : Type} (l : List γ) (f g : γ → ℚ) :
    (l.map (fun b => f b + g b)).sum = (l.map f).sum + (l.map g).sum := by
  induction l with
  | nil => simp
  | cons b bs ih =>
    simp only [List.map_cons, List.sum_cons, ih]
    ring

theorem list_sum_swap {β γ : Type} (l1 : List β) (l2 : List γ) (f : β → γ → ℚ) :
    (l1.map (fun a => (l2.map (fun b => f a b)).sum)).sum
      = (l2.map (fun b => (l1.map (fun a => f a b)).sum)).sum := by
  induction l1 with
  | nil =>
    simp only [List.map_nil, List.sum_nil]
    symm
    apply List.sum_eq_zero
    intro x hx
    simp only [List.mem_map] at hx
    obtain ⟨b, _, rfl⟩ := hx
    simp
  | cons a as ih =>
    simp only [List.map_cons, List.sum_cons, ih]
    exact (list_sum_map_add l2 (fun b => f a b) (fun b => (as.map (fun a2 => f a2 b)).sum)).symm

/-- Claim C7 counterexample: in dataC7 a location is literally named
"demand", which is not one of the five cost fields, so every customer lacks
a cost entry for it — yet the construction does not fail: the getattr of
line 59 finds the demand attribute and the matrix entry for customer A
becomes demand 7 plus shipping cost 2, that is 9. -/
theorem c7_counterexample :
    ("demand" : String) ∉ fieldNames
      ∧ (⟨"demand", 5, 2, 0⟩ : Location) ∈ dataC7.locations
      ∧ dataC7.customers ≠ []
      ∧ exceptIsOk (transform_data_to_cost_matrix dataC7.customers dataC7.locations) = true
      ∧ (transform_data_to_cost_matrix dataC7.customers dataC7.locations).map
          (fun M => dictGet (dictGet M "demand" []) "A" 0) = .ok 9 := by
  refine ⟨by decide, by decide, by decide, by rfl, ?_⟩
  simp only [dataC7, transform_data_to_cost_matrix, exceptFold, fillCustomer, shippingCosts,
    initMatrix, dictOf, dictSet, dictGet, dictKeys, syntheticLoop, getattrCost, List.foldl]
  simp
  all_goals norm_num [dictSet, dictGet, Except.map]

/-- Claim C7 amended: building the cost matrix fails exactly when there is
at least one customer and some declared location whose name is not a
numeric attribute of the Customer model — neither one of the five cost
fields nor demand.  In particular a location named "demand" does not fail:
getattr finds the demand field and its value is silently used as that
location base cost; a location named "client" or any other non-numeric
attribute still fails, through the single error channel of lines 122-123. -/
theorem c7_amended (customers : List Customer) (locations : List Location) :
    exceptIsOk (transform_data_to_cost_matrix customers locations) = false
      ↔ customers ≠ [] ∧ ∃ l ∈ locations, l.location ∉ numericAttrNames := by
  constructor
  · intro h
    by_contra hno
    push_neg at hno
    rcases customers with _ | ⟨c, cs⟩
    · simp [transform_data_to_cost_matrix, exceptFold, exceptIsOk] at h
    · have hgood : ∀ l ∈ locations, l.location ∈ numericAttrNames :=
        hno (by simp)
      rw [transform_ok (c :: cs) locations hgood] at h
      simp [exceptIsOk] at h
  · rintro ⟨hne, l0, hl0, hbad⟩
    rcases customers with _ | ⟨c, cs⟩
    · exact absurd rfl hne
    · exact transform_error (c :: cs) locations c l0 (List.mem_cons_self c cs) hl0
        ((getattrCost_eq_none_iff c l0.location).mpr hbad)

/-- Claim C8 counterexample: with a real customer whose name collides with
the fictitious client (dataC8, supply 10, demand 4), line 74 overwrites that
customer demand, and after balancing the demand total is 6, not the supply
total 10. -/
theorem c8_counterexample :
    dictSum (demanda dataC8) = 6 ∧ dictSum (oferta dataC8) = 10
      ∧ dictSum (demanda dataC8) ≠ dictSum (oferta dataC8) := by
  decide

/-- Claim C8 amended: provided no customer is named "Cliente fic.", the
balancing assignment of line 74 makes the total of the demand dict equal
the total of the supply dict. -/
theorem c8_amended (data : TransportationData)
    (hnc : ∀ c ∈ data.customers, c.client ≠ "Cliente fic.") :
    dictSum (demanda data) = dictSum (oferta data) :=
  dictSum_demanda data hnc

/-- Claim C8 amended, witness at dataW. -/
theorem c8_amended_witness :
    (∀ c ∈ dataW.customers, c.client ≠ "Cliente fic.")
      ∧ dictSum (demanda dataW) = dictSum (oferta dataW) :=
  ⟨by decide, c8_amended dataW (by decide)⟩

/-- Claim C9: two requests that agree on the customers and on the
location, capacity and shippingCost of every location — so that they can
differ only in validCombinations and in the generalCost fields — produce
the same response. -/
theorem c9_unused_inputs (s : Solver) (d1 d2 : TransportationData)
    (hcust : d1.customers = d2.customers)
    (hloc : d1.locations.map (fun l => (l.location, l.capacity, l.shippingCost))
          = d2.locations.map (fun l => (l.location, l.capacity, l.shippingCost))) :
    solve_transportation s d1 = solve_transportation s d2 := by
  have ht : transform_data_to_cost_matrix d1.customers d1.locations
      = transform_data_to_cost_matrix d2.customers d2.locations := by
    rw [hcust]
    exact transform_eq_of_proj d2.customers d1.locations d2.locations hloc
  have ho : oferta d1 = oferta d2 := oferta_eq_of_proj d1 d2 hloc
  have hd0 : demanda0 d1 = demanda0 d2 := by
    rw [demanda0, demanda0, hcust]
  have hd : demanda d1 = demanda d2 := by
    rw [demanda, demanda, ho, hd0]
  simp only [solve_transportation]
  rw [ht, ho, hd]

/-- Claim C9, witness: dataW1 and dataW2 differ exactly in the
validCombinations list and the generalCost field. -/
theorem c9_unused_inputs_witness :
    solve_transportation solverW dataW1 = solve_transportation solverW dataW2 :=
  c9_unused_inputs solverW dataW1 dataW2 rfl rfl

/-- Claim C10: a real customer whose identifier equals "Cliente fic." has
its cost entries overwritten to 0 for every location, and the demand stored
under its name is replaced by the surplus, total capacity minus the total
demand of all customers. -/
theorem c10_collision (data : TransportationData) (cust : Customer)
    (hmem : cust ∈ data.customers) (hname : cust.client = "Cliente fic.")
    (hndC : (data.customers.map fun c => c.client).Nodup)
    (hndL : (data.locations.map fun l => l.location).Nodup)
    (hgood : ∀ l ∈ data.locations, l.location ∈ fieldNames)
    (M : Dict (Dict ℚ))
    (hM : transform_data_to_cost_matrix data.customers data.locations = .ok M) :
    (∀ l ∈ data.locations, dictGet (dictGet M l.location []) cust.client 0 = 0)
      ∧ dictGet (demanda data) cust.client 0
        = (data.locations.map fun l => l.capacity).sum
          - (data.customers.map fun c => c.demand).sum := by
  constructor
  · intro l hl
    rw [hname,
      transform_entry data.customers data.locations
        (fun l2 hl2 => List.mem_append_left _ (hgood l2 hl2))
        (mem_initMatrix_keys data.locations hl) "Cliente fic." M hM,
      dictGet_set_self]
  · rw [hname, demanda_getD_fic, dictSum_oferta data hndL, dictSum_demanda0 data hndC]

/-- Claim C10, witness at dataX: the colliding customer ends with cost entry
0 for Cleveland and stored demand 6 = 10 - 4 instead of the submitted 4. -/
theorem c10_collision_witness :
    dictGet (dictGet ([("Cleveland", [("Cliente fic.", 0)])] : Dict (Dict ℚ)) "Cleveland" [])
        "Cliente fic." 0 = 0
      ∧ dictGet (demanda dataX) "Cliente fic." 0 = 6 := by
  have h := c10_collision dataX ⟨"Cliente fic.", 2, 2, 2, 2, 2, 4⟩ (by decide) rfl
    (by decide) (by decide) (by decide)
    ([("Cleveland", [("Cliente fic.", 0)])] : Dict (Dict ℚ)) (by rfl)
  refine ⟨h.1 ⟨"Cleveland", 10, 1, 0⟩ (by decide), h.2.trans (by decide)⟩

/-- Claim C1 counterexample: on dataC1 total demand 10 exceeds total
capacity 5, yet the endpoint does not fail: it proceeds to build and solve
the model and returns a response (status Infeasible from the solver);
indeed no allocation can satisfy the generated constraints. -/
theorem c1_counterexample :
    (dataC1.customers.map fun c => c.demand).sum > (dataC1.locations.map fun l => l.capacity).sum
      ∧ exceptIsOk (solve_transportation solverInf dataC1) = true
      ∧ (solve_transportation solverInf dataC1).map Response.status = .ok "Infeasible"
      ∧ ¬ ∃ v, SatisfiesConstraints v (oferta dataC1) (demanda dataC1) := by
  refine ⟨by decide, by rfl, by rfl, ?_⟩
  exact no_feasible_of_neg_demand (oferta dataC1) (demanda dataC1)
    (k := "Cliente fic.") (by decide) (by decide)

/-- Claim C1 amended: when total demand exceeds total capacity (and the
cost matrix builds), no InfeasibleProblemError is raised: the balancing
line stores a negative fictitious demand, the constraint system becomes
infeasible, and the endpoint still answers with whatever status the
external solver reports, matrix included. -/
theorem c1_amended (s : Solver) (data : TransportationData) (costos : Dict (Dict ℚ))
    (hT : transform_data_to_cost_matrix data.customers data.locations = .ok costos)
    (hndC : (data.customers.map fun c => c.client).Nodup)
    (hndL : (data.locations.map fun l => l.location).Nodup)
    (hgt : (data.customers.map fun c => c.demand).sum
         > (data.locations.map fun l => l.capacity).sum) :
    exceptIsOk (solve_transportation s data) = true
      ∧ (solve_transportation s data).map Response.status
          = .ok (s costos (oferta data) (demanda data)).status
      ∧ dictGet (demanda data) "Cliente fic." 0 < 0
      ∧ ¬ ∃ v, SatisfiesConstraints v (oferta data) (demanda data) := by
  have hneg : dictGet (demanda data) "Cliente fic." 0 < 0 := by
    rw [demanda_getD_fic, dictSum_oferta data hndL, dictSum_demanda0 data hndC]
    omega
  have hmem : "Cliente fic." ∈ dictKeys (demanda data) := by
    rw [demanda, mem_dictKeys_set]
    exact Or.inr rfl
  refine ⟨?_, ?_, hneg, no_feasible_of_neg_demand _ _ hmem hneg⟩
  · rw [solve_transportation_ok s data costos hT]
    rfl
  · rw [solve_transportation_ok s data costos hT]
    rfl

/-- Claim C1 amended, witness at dataC1 with the infeasible-reporting
solver. -/
theorem c1_amended_witness :
    exceptIsOk (solve_transportation solverInf dataC1) = true
      ∧ (solve_transportation solverInf dataC1).map Response.status
          = .ok (solverInf ([("Cleveland", [("A", 1), ("Cliente fic.", 0)])] : Dict (Dict ℚ))
              (oferta dataC1) (demanda dataC1)).status
      ∧ dictGet (demanda dataC1) "Cliente fic." 0 < 0
      ∧ ¬ ∃ v, SatisfiesConstraints v (oferta dataC1) (demanda dataC1) := by
  have hT : transform_data_to_cost_matrix dataC1.customers dataC1.locations
      = .ok ([("Cleveland", [("A", 1), ("Cliente fic.", 0)])] : Dict (Dict ℚ)) := by
    norm_num [dataC1, transform_data_to_cost_matrix, exceptFold, fillCustomer, shippingCosts,
      initMatrix, dictOf, dictSet, dictGet, dictKeys, syntheticLoop, getattrCost, List.foldl]
    decide
  exact c1_amended solverInf dataC1
    ([("Cleveland", [("A", 1), ("Cliente fic.", 0)])] : Dict (Dict ℚ))
    hT (by decide) (by decide) (by decide)

/-- Claim C2 counterexample: a successful solve on dataC2 (one customer)
returns three matrix rows, not one-per-customer plus the capacity row:
the fictitious client "Cliente fic." contributes a row of its own. -/
theorem c2_counterexample :
    dataC2.customers.length = 1
      ∧ (solve_transportation solverC2 dataC2).map (fun r => r.matrix.length) = .ok 3
      ∧ (solve_transportation solverC2 dataC2).map
          (fun r => r.matrix.map (fun row => dictGet row "CLIENTE" (Cell.str "")))
        = .ok [Cell.str "A", Cell.str "Cliente fic.", Cell.str "CAPACIDAD"] := by
  refine ⟨rfl, by rfl, by rfl⟩

/-- Claim C2 amended: a successful solve returns one row per original
customer in input order, then one extra row for the fictitious client
"Cliente fic.", then the trailing capacity row. -/
theorem c2_amended (s : Solver) (data : TransportationData) (costos : Dict (Dict ℚ))
    (r : Response)
    (hT : transform_data_to_cost_matrix data.customers data.locations = .ok costos)
    (hR : solve_transportation s data = .ok r)
    (hndC : (data.customers.map fun c => c.client).Nodup)
    (hnc : ∀ c ∈ data.customers, c.client ≠ "Cliente fic.")
    (hCL : ∀ l ∈ data.locations, l.location ≠ "CLIENTE") :
    r.matrix.length = data.customers.length + 2
      ∧ r.matrix.map (fun row => dictGet row "CLIENTE" (Cell.str ""))
          = (data.customers.map fun c => Cell.str c.client)
            ++ [Cell.str "Cliente fic.", Cell.str "CAPACIDAD"] := by
  rw [solve_transportation_ok s data costos hT] at hR
  injection hR with h
  subst h
  dsimp only
  have hCLo : ("CLIENTE" : String) ∉ dictKeys (oferta data) := not_mem_oferta_keys data hCL
  have hkeys := demanda_keys data hndC hnc
  constructor
  · rw [List.length_append, List.length_map, hkeys]
    simp
  · rw [List.map_append, List.map_map, hkeys]
    have hmapc : ((data.customers.map fun c => c.client) ++ ["Cliente fic."]).map
        ((fun row => dictGet row "CLIENTE" (Cell.str "")) ∘
          mkRow (s costos (oferta data) (demanda data)).value (dictKeys (oferta data)))
        = ((data.customers.map fun c => c.client) ++ ["Cliente fic."]).map Cell.str := by
      apply List.map_congr_left
      intro c _
      exact mkRow_CLIENTE _ _ c (Cell.str "") hCLo
    rw [hmapc, List.map_append, List.map_map]
    simp [capacityRow_CLIENTE _ _ _ hCLo, Function.comp, List.append_assoc]

/-- Claim C2 amended, witness at dataW. -/
theorem c2_amended_witness :
    (solve_transportation solverW dataW).map (fun r => r.matrix.length) = .ok 3
      ∧ (solve_transportation solverW dataW).map
          (fun r => r.matrix.map (fun row => dictGet row "CLIENTE" (Cell.str "")))
        = .ok [Cell.str "A", Cell.str "Cliente fic.", Cell.str "CAPACIDAD"] := by
  have hT : transform_data_to_cost_matrix dataW.customers dataW.locations
      = .ok ([("Cleveland", [("A", 1), ("Cliente fic.", 0)])] : Dict (Dict ℚ)) := by
    norm_num [dataW, transform_data_to_cost_matrix, exceptFold, fillCustomer, shippingCosts,
      initMatrix, dictOf, dictSet, dictGet, dictKeys, syntheticLoop, getattrCost, List.foldl]
    decide
  rcases hE : solve_transportation solverW dataW with e | r
  · have hok : exceptIsOk (solve_transportation solverW dataW) = true := rfl
    rw [hE] at hok
    simp [exceptIsOk] at hok
  · have h := c2_amended solverW dataW _ r hT hE (by decide) (by decide) (by decide)
    constructor
    · simp only [Except.map]
      rw [h.1]
      rfl
    · simp only [Except.map]
      rw [h.2]
      rfl

/-- Claim C3 counterexample: in dataC3 a real customer is named
"Cliente fic." with base cost 5 for Cleveland and shipping cost 2; the
claim demands the entry 5 + 2, but the built matrix stores 0 for it. -/
theorem c3_counterexample :
    (⟨"Cliente fic.", 5, 5, 5, 5, 5, 3⟩ : Customer) ∈ dataC3.customers
      ∧ (⟨"Cleveland", 10, 2, 0⟩ : Location) ∈ dataC3.locations
      ∧ (transform_data_to_cost_matrix dataC3.customers dataC3.locations).map
          (fun M => dictGet (dictGet M "Cleveland" []) "Cliente fic." 0) = .ok 0
      ∧ ((⟨"Cliente fic.", 5, 5, 5, 5, 5, 3⟩ : Customer).Cleveland
          + (⟨"Cleveland", 10, 2, 0⟩ : Location).shippingCost ≠ 0) := by
  refine ⟨by decide, by decide, by rfl, by norm_num⟩

/-- Claim C3 amended: for every real customer whose name is not the
reserved "Cliente fic." (names unique), the built matrix entry is the
customer base cost plus the location shippingCost, and the entry of the
fictitious client is 0 for every location. -/
theorem c3_amended (customers : List Customer) (locations : List Location)
    (hgood : ∀ l ∈ locations, l.location ∈ fieldNames)
    (hndC : (customers.map fun c => c.client).Nodup)
    (hndL : (locations.map fun l => l.location).Nodup)
    (hnc : ∀ c ∈ customers, c.client ≠ "Cliente fic.")
    (M : Dict (Dict ℚ))
    (hM : transform_data_to_cost_matrix customers locations = .ok M) :
    (∀ l ∈ locations, ∀ c ∈ customers, ∀ b : ℚ, getattrCost c l.location = some b →
        dictGet (dictGet M l.location []) c.client 0 = b + l.shippingCost)
      ∧ (∀ l ∈ locations, dictGet (dictGet M l.location []) "Cliente fic." 0 = 0) := by
  constructor
  · intro l hl c hc b hb
    rw [transform_entry customers locations
        (fun l2 hl2 => List.mem_append_left _ (hgood l2 hl2))
        (mem_initMatrix_keys locations hl) c.client M hM,
      dictGet_set_ne _ _ _ (hnc c hc)]
    have hmem : (c.client, getCost c l.location + dictGet (shippingCosts locations) l.location 0)
        ∈ customers.map (fun c2 =>
            (c2.client, getCost c2 l.location + dictGet (shippingCosts locations) l.location 0)) := by
      simp only [List.mem_map]
      exact ⟨c, hc, rfl⟩
    rw [dictGet_dictOf_nodup 0 ?_ hmem]
    · rw [show getCost c l.location = b by simp [getCost, hb],
        shippingCosts_getD locations hndL hl]
    · simpa [List.map_map, Function.comp] using hndC
  · intro l hl
    rw [transform_entry customers locations
        (fun l2 hl2 => List.mem_append_left _ (hgood l2 hl2))
        (mem_initMatrix_keys locations hl) "Cliente fic." M hM,
      dictGet_set_self]

/-- Claim C3 amended, witness at dataW. -/
theorem c3_amended_witness :
    dictGet (dictGet ([("Cleveland", [("A", 1), ("Cliente fic.", 0)])] : Dict (Dict ℚ))
        "Cleveland" []) "A" 0 = 1 + (0 : ℚ)
      ∧ dictGet (dictGet ([("Cleveland", [("A", 1), ("Cliente fic.", 0)])] : Dict (Dict ℚ))
        "Cleveland" []) "Cliente fic." 0 = 0 := by
  have hT : transform_data_to_cost_matrix dataW.customers dataW.locations
      = .ok ([("Cleveland", [("A", 1), ("Cliente fic.", 0)])] : Dict (Dict ℚ)) := by
    norm_num [dataW, transform_data_to_cost_matrix, exceptFold, fillCustomer, shippingCosts,
      initMatrix, dictOf, dictSet, dictGet, dictKeys, syntheticLoop, getattrCost, List.foldl]
    decide
  have h := c3_amended dataW.customers dataW.locations (by decide) (by decide) (by decide)
    (by decide) _ hT
  exact ⟨h.1 ⟨"Cleveland", 100, 0, 0⟩ (by decide) ⟨"A", 1, 1, 1, 1, 1, 80⟩ (by decide) 1 rfl,
    h.2 ⟨"Cleveland", 100, 0, 0⟩ (by decide)⟩

/-- Claim C4 counterexample: dataC4 is balanced (capacity 4, demand 4) and
its only customer is named "Cliente fic."; the zero allocation satisfies
the generated constraints with status Optimal, yet the row reported for
that submitted customer carries DEMANDA 0, not the submitted demand 4. -/
theorem c4_counterexample :
    (dataC4.customers.map fun c => c.demand).sum = (dataC4.locations.map fun l => l.capacity).sum
      ∧ (solverZero [("Cleveland", [("Cliente fic.", 0)])] (oferta dataC4)
          (demanda dataC4)).status = "Optimal"
      ∧ SatisfiesConstraints
          (solverZero [("Cleveland", [("Cliente fic.", 0)])] (oferta dataC4)
            (demanda dataC4)).value
          (oferta dataC4) (demanda dataC4)
      ∧ (solve_transportation solverZero dataC4).map
          (fun r => r.matrix.map (fun row => dictGet row "CLIENTE" (Cell.str "")))
          = .ok [Cell.str "Cliente fic.", Cell.str "CAPACIDAD"]
      ∧ (solve_transportation solverZero dataC4).map
          (fun r => (r.matrix.take 1).map (fun row => dictGet row "DEMANDA" (Cell.num 99)))
          = .ok [Cell.num 0]
      ∧ (⟨"Cliente fic.", 1, 1, 1, 1, 1, 4⟩ : Customer) ∈ dataC4.customers
      ∧ ((⟨"Cliente fic.", 1, 1, 1, 1, 1, 4⟩ : Customer).demand : ℚ) ≠ 0 := by
  refine ⟨by decide, rfl, ?_, by rfl, ?_, by decide, by norm_num⟩
  · norm_num [SatisfiesConstraints, solverZero, oferta, demanda, demanda0, dataC4,
      dictOf, dictSet, dictKeys, dictGet, dictSum, List.foldl]
  · norm_num [solve_transportation, transform_data_to_cost_matrix, exceptFold, fillCustomer,
      shippingCosts, initMatrix, dictOf, dictSet, dictGet, dictKeys, dictSum, syntheticLoop,
      getattrCost, mkRow, capacityRow, objectiveValue, solverZero, dataC4, oferta, demanda,
      demanda0, List.foldl, Except.map]
    decide

/-- Claim C4 amended: on a solve reported Optimal by a solver meeting the
LP contract, and provided names are unique and no customer usurps the
reserved name "Cliente fic.", the allocation ships at most capacity from
every location, exactly the submitted demand to every customer, and the
customer rows report exactly those demands in their DEMANDA field. -/
theorem c4_amended (s : Solver) (data : TransportationData) (costos : Dict (Dict ℚ))
    (r : Response)
    (hT : transform_data_to_cost_matrix data.customers data.locations = .ok costos)
    (hR : solve_transportation s data = .ok r)
    (hndC : (data.customers.map fun c => c.client).Nodup)
    (hndL : (data.locations.map fun l => l.location).Nodup)
    (hnc : ∀ c ∈ data.customers, c.client ≠ "Cliente fic.")
    (hOpt : (s costos (oferta data) (demanda data)).status = "Optimal")
    (hContract : SolverOutcomeOk (s costos (oferta data) (demanda data))
        (oferta data) (demanda data)) :
    (∀ l ∈ data.locations,
        ((dictKeys (demanda data)).map
          (fun c => (s costos (oferta data) (demanda data)).value l.location c)).sum
          ≤ (l.capacity : ℚ))
      ∧ (∀ c ∈ data.customers,
          ((dictKeys (oferta data)).map
            (fun a => (s costos (oferta data) (demanda data)).value a c.client)).sum
            = (c.demand : ℚ))
      ∧ (r.matrix.map (fun row => dictGet row "DEMANDA" (Cell.num 0))).take
            data.customers.length
          = data.customers.map (fun c => Cell.num (c.demand : ℚ)) := by
  obtain ⟨hsup, hdem, hpos⟩ := hContract hOpt
  have hpart2 : ∀ c ∈ data.customers,
      ((dictKeys (oferta data)).map
        (fun a => (s costos (oferta data) (demanda data)).value a c.client)).sum
        = (c.demand : ℚ) := by
    intro c hc
    have hmemk : c.client ∈ dictKeys (demanda data) := by
      rw [demanda_keys data hndC hnc]
      simp only [List.mem_append, List.mem_map]
      exact Or.inl ⟨c, hc, rfl⟩
    have h := hdem c.client hmemk
    rw [demanda_getD_real data hndC hc (hnc c hc)] at h
    exact h
  refine ⟨?_, hpart2, ?_⟩
  · intro l hl
    have h := hsup l.location (mem_oferta_keys data hl)
    rw [oferta_getD data hndL hl] at h
    exact h
  · rw [solve_transportation_ok s data costos hT] at hR
    injection hR with h
    subst h
    dsimp only
    rw [List.map_append, List.map_map, demanda_keys data hndC hnc, List.map_append,
      List.append_assoc]
    have hn : data.customers.length
        = ((data.customers.map fun c => c.client).map
            ((fun row => dictGet row "DEMANDA" (Cell.num 0)) ∘
              mkRow (s costos (oferta data) (demanda data)).value
                (dictKeys (oferta data)))).length := by
      simp
    rw [hn, List.take_left, List.map_map]
    apply List.map_congr_left
    intro c hc
    show dictGet (mkRow (s costos (oferta data) (demanda data)).value
        (dictKeys (oferta data)) c.client) "DEMANDA" (Cell.num 0) = Cell.num (c.demand : ℚ)
    rw [mkRow_DEMANDA]
    exact congrArg Cell.num (hpart2 c hc)

/-- Claim C4 amended, witness at dataW with a contract-satisfying solver. -/
theorem c4_amended_witness :
    ((dictKeys (oferta dataW)).map
        (fun a => (solverW ([("Cleveland", [("A", 1), ("Cliente fic.", 0)])] : Dict (Dict ℚ))
          (oferta dataW) (demanda dataW)).value a "A")).sum = ((80 : Int) : ℚ)
      ∧ (solve_transportation solverW dataW).map
          (fun r => (r.matrix.map (fun row => dictGet row "DEMANDA" (Cell.num 0))).take
            dataW.customers.length)
        = .ok (dataW.customers.map (fun c => Cell.num (c.demand : ℚ))) := by
  have hT : transform_data_to_cost_matrix dataW.customers dataW.locations
      = .ok ([("Cleveland", [("A", 1), ("Cliente fic.", 0)])] : Dict (Dict ℚ)) := by
    norm_num [dataW, transform_data_to_cost_matrix, exceptFold, fillCustomer, shippingCosts,
      initMatrix, dictOf, dictSet, dictGet, dictKeys, syntheticLoop, getattrCost, List.foldl]
    decide
  have hContract : SolverOutcomeOk
      (solverW ([("Cleveland", [("A", 1), ("Cliente fic.", 0)])] : Dict (Dict ℚ))
        (oferta dataW) (demanda dataW)) (oferta dataW) (demanda dataW) := by
    intro _
    simp only [SatisfiesConstraints, solverW, oferta, demanda, demanda0, dataW,
      dictOf, dictSet, dictKeys, dictGet, dictSum, List.foldl]
    simp
    all_goals norm_num
  rcases hE : solve_transportation solverW dataW with e | r
  · have hok : exceptIsOk (solve_transportation solverW dataW) = true := rfl
    rw [hE] at hok
    simp [exceptIsOk] at hok
  · have h := c4_amended solverW dataW _ r hT hE (by decide) (by decide) (by decide)
      rfl hContract
    refine ⟨h.2.1 ⟨"A", 1, 1, 1, 1, 1, 80⟩ (by decide), ?_⟩
    simp only [Except.map]
    exact congrArg Except.ok h.2.2

/-- Claim C5: on every successful solve, the reported total_cost equals the
dot product of the shipped quantities returned in the matrix rows with the
built cost matrix (exactly, hence within any epsilon). -/
theorem c5_total_cost (s : Solver) (data : TransportationData) (costos : Dict (Dict ℚ))
    (r : Response)
    (hT : transform_data_to_cost_matrix data.customers data.locations = .ok costos)
    (hR : solve_transportation s data = .ok r)
    (hDE : ∀ l ∈ data.locations, l.location ≠ "DEMANDA") :
    r.total_cost
      = ((r.matrix.dropLast.zip (dictKeys (demanda data))).map (fun p =>
          ((dictKeys (oferta data)).map (fun a =>
            cellNum (dictGet p.1 a (Cell.num 0)) * dictGet (dictGet costos a []) p.2 0)).sum)).sum := by
  rw [solve_transportation_ok s data costos hT] at hR
  injection hR with h
  subst h
  dsimp only
  rw [List.dropLast_concat, zip_map_self, List.map_map, objectiveValue, list_sum_swap]
  refine congrArg List.sum ?_
  apply List.map_congr_left
  intro c hc
  show ((dictKeys (oferta data)).map (fun a =>
      (s costos (oferta data) (demanda data)).value a c
        * dictGet (dictGet costos a []) c 0)).sum
    = ((dictKeys (oferta data)).map (fun a =>
      cellNum (dictGet (mkRow (s costos (oferta data) (demanda data)).value
          (dictKeys (oferta data)) c) a (Cell.num 0))
        * dictGet (dictGet costos a []) c 0)).sum
  refine congrArg List.sum ?_
  apply List.map_congr_left
  intro a ha
  obtain ⟨l, hl, rfl⟩ := oferta_keys_sub data ha
  rw [mkRow_almacen _ _ _ _ (oferta_WF data) ha (hDE l hl)]
  rfl

/-- Claim C5, witness at dataW. -/
theorem c5_total_cost_witness :
    (solve_transportation solverW dataW).map (fun r => r.total_cost)
      = (solve_transportation solverW dataW).map (fun r =>
          ((r.matrix.dropLast.zip (dictKeys (demanda dataW))).map (fun p =>
            ((dictKeys (oferta dataW)).map (fun a =>
              cellNum (dictGet p.1 a (Cell.num 0))
                * dictGet (dictGet ([("Cleveland", [("A", 1), ("Cliente fic.", 0)])] : Dict (Dict ℚ))
                    a []) p.2 0)).sum)).sum) := by
  have hT : transform_data_to_cost_matrix dataW.customers dataW.locations
      = .ok ([("Cleveland", [("A", 1), ("Cliente fic.", 0)])] : Dict (Dict ℚ)) := by
    norm_num [dataW, transform_data_to_cost_matrix, exceptFold, fillCustomer, shippingCosts,
      initMatrix, dictOf, dictSet, dictGet, dictKeys, syntheticLoop, getattrCost, List.foldl]
    decide
  rcases hE : solve_transportation solverW dataW with e | r
  · have hok : exceptIsOk (solve_transportation solverW dataW) = true := rfl
    rw [hE] at hok
    simp [exceptIsOk] at hok
  · simp only [Except.map]
    exact congrArg Except.ok
      (c5_total_cost solverW dataW _ r hT hE (by decide))

/-- Claim C6 counterexample: on dataC6 the real demand total is 4 and the
capacity total is 10, but the trailing summary row label is "10 / 10" —
the second number is the balanced demand total (equal to the capacity),
not the real demand total 4. -/
theorem c6_counterexample :
    (dataC6.customers.map fun c => c.demand).sum = 4
      ∧ dictSum (oferta dataC6) = 10
      ∧ (solve_transportation solverC2 dataC6).map
          (fun r => r.matrix.getLast?.map (fun row => dictGet row "DEMANDA" (Cell.str "")))
        = .ok (some (Cell.str "10 / 10"))
      ∧ Cell.str "10 / 10" ≠ Cell.str "10 / 4" := by
  refine ⟨by decide, by decide, by rfl, by decide⟩

/-- Claim C6 amended: the trailing summary row is the capacity row and its
DEMANDA field is the label total capacity / total balanced demand, whose
second number equals the total capacity (not the total real demand),
provided no customer is named "Cliente fic.". -/
theorem c6_amended (s : Solver) (data : TransportationData) (costos : Dict (Dict ℚ))
    (r : Response)
    (hT : transform_data_to_cost_matrix data.customers data.locations = .ok costos)
    (hR : solve_transportation s data = .ok r)
    (hnc : ∀ c ∈ data.customers, c.client ≠ "Cliente fic.") :
    r.matrix.getLast? = some (capacityRow (oferta data) (dictSum (demanda data)))
      ∧ dictGet (capacityRow (oferta data) (dictSum (demanda data))) "DEMANDA" (Cell.str "")
          = Cell.str (toString (dictSum (oferta data)) ++ " / "
              ++ toString (dictSum (oferta data))) := by
  constructor
  · rw [solve_transportation_ok s data costos hT] at hR
    injection hR with h
    subst h
    dsimp only
    rw [List.getLast?_concat]
  · rw [capacityRow_DEMANDA _ _ _ (oferta_WF data), dictSum_demanda data hnc]

/-- Claim C6 amended, witness at dataW. -/
theorem c6_amended_witness :
    (solve_transportation solverW dataW).map (fun r => r.matrix.getLast?)
        = .ok (some (capacityRow (oferta dataW) (dictSum (demanda dataW))))
      ∧ dictGet (capacityRow (oferta dataW) (dictSum (demanda dataW))) "DEMANDA" (Cell.str "")
          = Cell.str (toString (dictSum (oferta dataW)) ++ " / "
              ++ toString (dictSum (oferta dataW))) := by
  have hT : transform_data_to_cost_matrix dataW.customers dataW.locations
      = .ok ([("Cleveland", [("A", 1), ("Cliente fic.", 0)])] : Dict (Dict ℚ)) := by
    norm_num [dataW, transform_data_to_cost_matrix, exceptFold, fillCustomer, shippingCosts,
      initMatrix, dictOf, dictSet, dictGet, dictKeys, syntheticLoop, getattrCost, List.foldl]
    decide
  rcases hE : solve_transportation solverW dataW with e | r
  · have hok : exceptIsOk (solve_transportation solverW dataW) = true := rfl
    rw [hE] at hok
    simp [exceptIsOk] at hok
  · have h := c6_amended solverW dataW _ r hT hE (by decide)
    refine ⟨?_, h.2⟩
    simp only [Except.map]
    exact congrArg Except.ok h.1
